import Mathlib

/-!
# Verification of the weighted k-NN core of `trading_algo`

Shallow embedding of `src/models/K-NN.py` (the only algorithmic module of the
repository) and proofs checking the natural-language specification against it.

Modelling conventions:

* Python/numpy floating-point arithmetic is idealized as exact arithmetic.
  Feature values and labels are embedded as rationals `ℚ` (every IEEE double
  is a rational number); the derived weights involve the irrational power
  `k ^ (2/d)` and are therefore embedded as real numbers `ℝ`.
* `np.linalg.norm` (Euclidean norm) is strictly monotone in the squared norm,
  so the neighbour *ranking* produced by sorting norms coincides — including
  its ties — with the ranking produced by sorting squared norms.  The
  embedding ranks by squared distances, which keeps the sort keys in `ℚ`.
* Python exceptions are embedded as `Except` values.  The source never raises
  explicitly; the error constructors below record which implicit runtime
  failure of the Python code they stand for.
* `np.argsort` is called with its default kind (`'quicksort'`, introsort).
  numpy's documentation leaves the relative order of equal keys unspecified
  for this kind (only `'stable'`/`'mergesort'` are documented as stable).
  The embedding must pick a definite order, and `argsort` below determinizes
  ties to ascending original index — the order numpy's small-array insertion
  sort regime produces.  Statements that depend on this choice are treated
  with care where the corresponding claim is settled.
-/

/-- Runtime failures of `K-NN.py`, named after the specification's error
taxonomy.  Each constructor stands for a concrete implicit Python failure:

* `invalidK`: `ZeroDivisionError` raised by `1.0 / k` in
  `compute_optimal_weights` when `k == 0` (this division is evaluated first,
  so `k == 0` fails this way for every `d`, including `d == 0`);
* `invalidDimension`: `ZeroDivisionError` raised by `2 / d` when `d == 0`
  (reached only when `k ≠ 0`);
* `notFitted`: `TypeError` raised by `self.X_train - test_point` in
  `predict` when `fit` was never called (`X_train` is `None`);
* `emptyDataset`: `ZeroDivisionError` raised by `errors / n` in
  `loocv_error` when the dataset has zero rows. -/
inductive KNNError where
  | invalidK
  | invalidDimension
  | notFitted
  | emptyDataset
  deriving DecidableEq

/-- The constant `C = (1/k) * (1 + d/2 - d/(2*k^(2/d)))` from
`compute_optimal_weights` (line `constant = 1.0 / k * (...)`). -/
noncomputable def optConstant (k d : ℕ) : ℝ :=
  1 / (k : ℝ) * (1 + (d : ℝ) / 2 - (d : ℝ) / (2 * (k : ℝ) ^ ((2 : ℝ) / (d : ℝ))))

/-- The denominator `i^(1+2/d) - (i-1)^(1+2/d)` from the loop body of
`compute_optimal_weights`. -/
noncomputable def rawDenominator (d i : ℕ) : ℝ :=
  (i : ℝ) ^ (1 + (2 : ℝ) / (d : ℝ)) - ((i : ℝ) - 1) ^ (1 + (2 : ℝ) / (d : ℝ))

/-- The unnormalized weight array built by the loop
`for i in range(1, k+1): weights[i-1] = constant / denominator`. -/
noncomputable def rawWeights (k d : ℕ) : List ℝ :=
  (List.range k).map (fun j => optConstant k d / rawDenominator d (j + 1))

/-- The weight array after the final normalization `weights /= np.sum(weights)`. -/
noncomputable def optimalWeights (k d : ℕ) : List ℝ :=
  (rawWeights k d).map (fun w => w / (rawWeights k d).sum)

/-- `compute_optimal_weights(k, d)` including its implicit failure modes.
Python evaluates `1.0 / k` before any expression containing `d`, so `k = 0`
fails with the division-by-`k` error (`invalidK`) for every `d`, and the
division-by-`d` error (`invalidDimension`) is reached only for `k ≠ 0`. -/
noncomputable def compute_optimal_weights (k d : ℕ) : Except KNNError (List ℝ) :=
  if k = 0 then .error .invalidK
  else if d = 0 then .error .invalidDimension
  else .ok (optimalWeights k d)

/-- Entry `j` of the normalized weight vector (0-based). -/
noncomputable def weightEntry (k d : ℕ) (j : ℕ) : ℝ :=
  optConstant k d / rawDenominator d (j + 1) / (rawWeights k d).sum


/-! ## Distance ranking

`loocv_error` and `WeightedKNNClassifier.predict` both execute the same three
lines: compute Euclidean distances from the test point to every training row
(`np.linalg.norm(X_train - test_point, axis=1)`), rank them with
`np.argsort`, and read the labels of the first `k` ranked rows.  The
Euclidean norm is the square root of the squared distance, and square root is
strictly monotone on nonnegative reals, so ranking by squared distance gives
the same order and the same ties; squared distances stay in `ℚ`. -/

/-- Squared Euclidean distance between two feature rows. -/
def sqDist (a b : List ℚ) : ℚ :=
  ((a.zip b).map (fun p => (p.1 - p.2) ^ 2)).sum

/-- Insert index `i` into an (ascending-by-key) index list, placing `i`
*after* every held index whose key is less than or equal to `keys[i]`.
This is the functional rendering of numpy's indirect insertion sort step,
which shifts `i` left only past strictly greater keys. -/
def insertIdx (keys : List ℚ) (i : ℕ) : List ℕ → List ℕ
  | [] => [i]
  | j :: rest =>
      if keys.getD i 0 < keys.getD j 0 then i :: j :: rest
      else j :: insertIdx keys i rest

/-- Embedding of `np.argsort(distances)`: the indices `0, …, n-1` ordered
ascending by key.  numpy's default sort kind (`'quicksort'`) leaves the
relative order of equal keys unspecified; this embedding determinizes ties
to ascending original index (the order numpy's insertion-sort regime for
short arrays produces).  The sort is realised as a stable insertion sort of
the index list. -/
def argsort (keys : List ℚ) : List ℕ :=
  (List.range keys.length).foldl (fun acc i => insertIdx keys i acc) []

/-- `np.delete(l, j, axis=0)`: the list with the row at position `j`
removed (a fresh list; the argument is not modified). -/
def npDelete {α : Type} (l : List α) (j : ℕ) : List α :=
  l.take j ++ l.drop (j + 1)

/-- `np.sum(weights * (neighbor_labels == 1))`: the weighted vote for
class 1.  `(neighbor_labels == 1)` is the 0/1 indicator array; elementwise
product with the weights truncates at the shorter operand (the theorems are
stated where both have length `k`, matching numpy's shape rules). -/
noncomputable def voteFor1 (w : List ℝ) (labels : List ℚ) : ℝ :=
  ((w.zip labels).map (fun p => p.1 * (if p.2 = 1 then 1 else 0))).sum

/-- `pred = 1 if vote >= 0.5 else 2` — the shared voting rule of
`loocv_error` and `predict`, with the tie at exactly `0.5` going to
class 1. -/
noncomputable def votePrediction (w : List ℝ) (labels : List ℚ) : ℤ :=
  if (0.5 : ℝ) ≤ voteFor1 w labels then 1 else 2

/-- The three shared ranking lines: distances from the test point to every
reference row, `argsort`, then the labels of the first `k` ranked rows
(`Y_train[sorted_idx[:k]]`). -/
def rankNeighborLabels (Xt : List (List ℚ)) (Yt : List ℚ) (tp : List ℚ) (k : ℕ) : List ℚ :=
  ((argsort (Xt.map (fun row => sqDist row tp))).take k).map (fun i => Yt.getD i 0)

/-! ## LOOCV evaluator -/

/-- The error counter accumulated by the `for j in range(n)` loop of
`loocv_error`: row `j` is deleted from `X` and `Y`, the remaining rows are
ranked from `X[j]`, and the vote prediction is compared with `Y[j]`. -/
noncomputable def loocvMisses (X : List (List ℚ)) (Y : List ℚ) (w : List ℝ) (k : ℕ) : ℕ :=
  (List.range X.length).foldl (fun errors j =>
    let X_train := npDelete X j
    let Y_train := npDelete Y j
    let test_point := X.getD j []
    let pred := votePrediction w (rankNeighborLabels X_train Y_train test_point k)
    if (pred : ℚ) ≠ Y.getD j 0 then errors + 1 else errors) 0

/-- `loocv_error(X, Y, k, d)`: computes the weights (propagating their
failure modes), runs the leave-one-out loop, and returns
`errors / n` — which in Python raises `ZeroDivisionError` when `n = 0`. -/
noncomputable def loocv_error (X : List (List ℚ)) (Y : List ℚ) (k d : ℕ) :
    Except KNNError ℝ :=
  match compute_optimal_weights k d with
  | .error e => .error e
  | .ok w =>
      if X.length = 0 then .error .emptyDataset
      else .ok ((loocvMisses X Y w k : ℝ) / (X.length : ℝ))

/-- `select_best_k(X, Y, candidate_ks, d)`: starts from
`best_k = None, best_error = float('inf')` and scans the candidates in the
given order, replacing the current selection only on a strictly smaller
LOOCV error (`if error < best_error`).  `None` is `Option.none` and
`float('inf')` is `⊤ : WithTop ℝ`.  An exception inside `loocv_error`
propagates out, aborting the scan.  (The `print` call is an informational
side effect with no bearing on the returned value.) -/
noncomputable def select_best_k (X : List (List ℚ)) (Y : List ℚ)
    (candidate_ks : List ℕ) (d : ℕ) : Except KNNError (Option ℕ × WithTop ℝ) :=
  candidate_ks.foldlM (fun best k => do
    let error ← loocv_error X Y k d
    if (error : WithTop ℝ) < best.2 then pure (some k, (error : WithTop ℝ))
    else pure best) ((none : Option ℕ), (⊤ : WithTop ℝ))

/-! ## Classifier -/

/-- The `WeightedKNNClassifier` object: `__init__` stores `k`, `d`, the
weight vector, and `X_train = Y_train = None`; `fit` replaces the two
`None`s with (references to) the caller's arrays. -/
structure WeightedKNNClassifier where
  k : ℕ
  d : ℕ
  weights : List ℝ
  X_train : Option (List (List ℚ))
  Y_train : Option (List ℚ)

/-- `WeightedKNNClassifier(k, d)`: the constructor itself calls
`compute_optimal_weights`, so its failure modes surface here. -/
noncomputable def WeightedKNNClassifier.init (k d : ℕ) :
    Except KNNError WeightedKNNClassifier :=
  match compute_optimal_weights k d with
  | .error e => .error e
  | .ok w => .ok ⟨k, d, w, none, none⟩

/-- `fit(X, Y)` stores references to the caller's arrays (no copy, no
validation, no mutation of `X` or `Y`). -/
def WeightedKNNClassifier.fit (c : WeightedKNNClassifier)
    (X : List (List ℚ)) (Y : List ℚ) : WeightedKNNClassifier :=
  { c with X_train := some X, Y_train := some Y }

/-- `predict(X_test)`.  Python allocates `predictions = np.zeros(m)` and
fills it row by row with the shared ranking + voting rule.  When `fit` was
never called, `self.X_train` is `None` and the first loop iteration raises
`TypeError` (modelled `notFitted`); when additionally `m = 0` the loop body
never runs and the empty prediction array is returned.  (A state with
exactly one of `X_train`/`Y_train` set is unreachable through the API:
`fit` always sets both.) -/
noncomputable def WeightedKNNClassifier.predict (c : WeightedKNNClassifier)
    (X_test : List (List ℚ)) : Except KNNError (List ℤ) :=
  match c.X_train, c.Y_train with
  | some Xt, some Yt =>
      .ok ((List.range X_test.length).map (fun j =>
        votePrediction c.weights (rankNeighborLabels Xt Yt (X_test.getD j []) c.k)))
  | _, _ =>
      if X_test.length = 0 then .ok [] else .error .notFitted

/-! ## Specification-side definitions

Definitions in this block follow the *spec's* wording (they are the
refinement side of the functional-correctness claims); everything above
follows the source. -/

/-- The spec's per-row decision rule, written from its words: compute
`vote = Σ_{i<k} weight(i) · 1[neighbor_label(i) = 1]` and predict label 1
iff `vote ≥ 0.5` (a vote of exactly `0.5` predicts 1), else label 2. -/
noncomputable def specPrediction (w : List ℝ) (labels : List ℚ) (k : ℕ) : ℤ :=
  if (0.5 : ℝ) ≤ ∑ i ∈ Finset.range k, w.getD i 0 * (if labels.getD i 0 = 1 then 1 else 0)
  then 1 else 2

/-- The value `loocv_error` returns on success: the LOOCV miss count over
the sample size. -/
noncomputable def loocvRate (X : List (List ℚ)) (Y : List ℚ) (k d : ℕ) : ℝ :=
  (loocvMisses X Y (optimalWeights k d) k : ℝ) / (X.length : ℝ)

/-! ## Borrowed-array sessions

The frame claim talks about the caller's arrays after a call.  The Python
bodies of `loocv_error`, `fit` and `predict` contain no store into `X` or
`Y`: `np.delete` and the vectorized arithmetic allocate fresh arrays,
`argsort`/`norm` are read-only, and `fit` only rebinds attributes of
`self` (holding references to the caller's arrays).  The session wrappers
pair each call's result with the borrowed arrays as the call leaves them,
threaded through the (write-free) body. -/

/-- `loocv_error` call together with the caller's arrays afterwards. -/
noncomputable def loocvSession (X : List (List ℚ)) (Y : List ℚ) (k d : ℕ) :
    (List (List ℚ) × List ℚ) × Except KNNError ℝ :=
  ((X, Y), loocv_error X Y k d)

/-- `fit` call together with the caller's arrays afterwards. -/
def fitSession (c : WeightedKNNClassifier) (X : List (List ℚ)) (Y : List ℚ) :
    (List (List ℚ) × List ℚ) × WeightedKNNClassifier :=
  ((X, Y), c.fit X Y)

/-- `predict` call together with the borrowed training arrays (as stored in
the fitted model) afterwards. -/
noncomputable def predictSession (c : WeightedKNNClassifier) (X_test : List (List ℚ)) :
    (Option (List (List ℚ)) × Option (List ℚ) × List (List ℚ)) × Except KNNError (List ℤ) :=
  ((c.X_train, c.Y_train, X_test), c.predict X_test)

section WeightLemmas

/-- For `d ≥ 1` the exponent `1 + 2/d` is at least `1`. -/
lemma one_le_expo {d : ℕ} (hd : 1 ≤ d) : (1 : ℝ) ≤ 1 + (2 : ℝ) / (d : ℝ) := by
  have hd' : (0 : ℝ) < (d : ℝ) := by exact_mod_cast hd
  have : (0 : ℝ) ≤ (2 : ℝ) / (d : ℝ) := by positivity
  linarith

/-- Each denominator `i^(1+2/d) - (i-1)^(1+2/d)` is positive for `i ≥ 1`,
`d ≥ 1` (exact real arithmetic): `x ↦ x^(1+2/d)` is strictly increasing on
nonnegative reals. -/
lemma rawDenominator_pos {d i : ℕ} (hd : 1 ≤ d) (hi : 1 ≤ i) :
    0 < rawDenominator d i := by
  have h1 : (0 : ℝ) ≤ (i : ℝ) - 1 := by
    have : (1 : ℝ) ≤ (i : ℝ) := by exact_mod_cast hi
    linarith
  have h2 : (i : ℝ) - 1 < (i : ℝ) := by linarith
  have h3 : (0 : ℝ) < 1 + (2 : ℝ) / (d : ℝ) := lt_of_lt_of_le one_pos (one_le_expo hd)
  have := Real.rpow_lt_rpow h1 h2 h3
  unfold rawDenominator
  linarith

/-- The constant `C` is positive for `k ≥ 1`, `d ≥ 1`:
`k^(2/d) ≥ 1` forces `d/(2 k^(2/d)) ≤ d/2`, so the bracket is at least 1. -/
lemma optConstant_pos {k d : ℕ} (hk : 1 ≤ k) (hd : 1 ≤ d) :
    0 < optConstant k d := by
  have hk' : (1 : ℝ) ≤ (k : ℝ) := by exact_mod_cast hk
  have hd' : (0 : ℝ) < (d : ℝ) := by exact_mod_cast hd
  have hexp : (0 : ℝ) ≤ (2 : ℝ) / (d : ℝ) := by positivity
  have hpow : (1 : ℝ) ≤ (k : ℝ) ^ ((2 : ℝ) / (d : ℝ)) := by
    have := Real.rpow_le_rpow (by norm_num : (0 : ℝ) ≤ 1) hk' hexp
    simpa [Real.one_rpow] using this
  have hpos : (0 : ℝ) < (k : ℝ) ^ ((2 : ℝ) / (d : ℝ)) := lt_of_lt_of_le one_pos hpow
  have hfrac : (d : ℝ) / (2 * (k : ℝ) ^ ((2 : ℝ) / (d : ℝ))) ≤ (d : ℝ) / 2 := by
    apply div_le_div_of_nonneg_left (le_of_lt hd') (by norm_num)
    nlinarith
  have hbracket : (1 : ℝ) ≤ 1 + (d : ℝ) / 2 - (d : ℝ) / (2 * (k : ℝ) ^ ((2 : ℝ) / (d : ℝ))) := by
    linarith
  have hk0 : (0 : ℝ) < 1 / (k : ℝ) := by positivity
  unfold optConstant
  nlinarith

lemma rawWeights_length (k d : ℕ) : (rawWeights k d).length = k := by
  simp [rawWeights]

lemma optimalWeights_length (k d : ℕ) : (optimalWeights k d).length = k := by
  simp [optimalWeights, rawWeights_length]

lemma rawWeights_mem_pos {k d : ℕ} (hk : 1 ≤ k) (hd : 1 ≤ d) :
    ∀ w ∈ rawWeights k d, 0 < w := by
  intro w hw
  simp only [rawWeights, List.mem_map, List.mem_range] at hw
  obtain ⟨j, _, rfl⟩ := hw
  exact div_pos (optConstant_pos hk hd) (rawDenominator_pos hd (Nat.le_add_left 1 j))

lemma rawWeights_sum_pos {k d : ℕ} (hk : 1 ≤ k) (hd : 1 ≤ d) :
    0 < (rawWeights k d).sum := by
  apply List.sum_pos _ (rawWeights_mem_pos hk hd)
  intro h
  have := rawWeights_length k d
  rw [h] at this
  simp at this
  omega

lemma sum_map_div (l : List ℝ) (s : ℝ) : (l.map (fun w => w / s)).sum = l.sum / s := by
  induction l with
  | nil => simp
  | cons a t ih => simp [ih, add_div]

/-- Dividing every raw weight by the raw sum yields an exact sum of 1 in real
arithmetic (the raw sum is nonzero). -/
lemma optimalWeights_sum {k d : ℕ} (hk : 1 ≤ k) (hd : 1 ≤ d) :
    (optimalWeights k d).sum = 1 := by
  unfold optimalWeights
  rw [sum_map_div]
  exact div_self (ne_of_gt (rawWeights_sum_pos hk hd))

/-- `compute_optimal_weights` succeeds precisely on positive `k` and `d`,
returning the normalized weights. -/
lemma compute_optimal_weights_ok {k d : ℕ} (hk : 1 ≤ k) (hd : 1 ≤ d) :
    compute_optimal_weights k d = .ok (optimalWeights k d) := by
  unfold compute_optimal_weights
  rw [if_neg (by omega), if_neg (by omega)]

/-- Consecutive denominators grow: midpoint convexity of `x ↦ x^(1+2/d)`
on `[0, ∞)` applied at `i-1`, `i`, `i+1`. -/
lemma rawDenominator_mono {d i : ℕ} (hd : 1 ≤ d) (hi : 1 ≤ i) :
    rawDenominator d i ≤ rawDenominator d (i + 1) := by
  have hi' : (1 : ℝ) ≤ (i : ℝ) := by exact_mod_cast hi
  have hcx := convexOn_rpow (one_le_expo hd)
  have ha : ((i : ℝ) - 1) ∈ Set.Ici (0 : ℝ) := by
    simp only [Set.mem_Ici]; linarith
  have hb : ((i : ℝ) + 1) ∈ Set.Ici (0 : ℝ) := by
    simp only [Set.mem_Ici]; linarith
  have hmid := hcx.2 ha hb (by norm_num : (0:ℝ) ≤ 1/2) (by norm_num : (0:ℝ) ≤ 1/2)
    (by norm_num : (1:ℝ)/2 + 1/2 = 1)
  have heq : ((1:ℝ)/2) • ((i : ℝ) - 1) + ((1:ℝ)/2) • ((i : ℝ) + 1) = (i : ℝ) := by
    simp only [smul_eq_mul]; ring
  rw [heq] at hmid
  simp only [smul_eq_mul] at hmid
  unfold rawDenominator
  push_cast
  have hsimp : ((i : ℝ) + 1 - 1) = (i : ℝ) := by ring
  rw [hsimp]
  linarith [hmid]


lemma optimalWeights_eq_map (k d : ℕ) :
    optimalWeights k d = (List.range k).map (weightEntry k d) := by
  simp [optimalWeights, rawWeights, weightEntry, List.map_map, Function.comp]

/-- The normalized weights are non-increasing in the neighbour rank for all
`k ≥ 1`, `d ≥ 1`. -/
lemma optimalWeights_antitone {k d : ℕ} (hk : 1 ≤ k) (hd : 1 ≤ d) :
    List.Chain' (fun a b => b ≤ a) (optimalWeights k d) := by
  rw [optimalWeights_eq_map]
  rw [List.chain'_map]
  obtain ⟨m, rfl⟩ : ∃ m, k = m + 1 := ⟨k - 1, by omega⟩
  rw [show (m + 1 : ℕ) = m.succ from rfl, List.chain'_range_succ]
  intro j _
  unfold weightEntry
  have hC := optConstant_pos hk hd
  have hS := rawWeights_sum_pos hk hd
  have h1 : 0 < rawDenominator d (j + 1) := rawDenominator_pos hd (by omega)
  have hmono : rawDenominator d (j + 1) ≤ rawDenominator d (j + 1 + 1) :=
    rawDenominator_mono hd (by omega)
  have hnum : optConstant (m + 1) d / rawDenominator d (j + 1 + 1) ≤
      optConstant (m + 1) d / rawDenominator d (j + 1) :=
    div_le_div_of_nonneg_left (le_of_lt hC) h1 hmono
  exact div_le_div_of_nonneg_right hnum (le_of_lt hS)

end WeightLemmas
/-! ## Claims about the weight solver -/

/-- C1: for all `k ≥ 1` and `d ≥ 1`, `compute_optimal_weights(k, d)` returns
a vector of length `k` whose entries sum to 1 (exactly, in the idealized
real arithmetic — hence in particular within the `1e-9` tolerance), because
the raw weights are divided by their total before being returned. -/
theorem claim_C1_weights_sum_to_one (k d : ℕ) (hk : 1 ≤ k) (hd : 1 ≤ d) :
    ∃ ws, compute_optimal_weights k d = .ok ws ∧ ws.length = k ∧
      ws.sum = 1 ∧ |ws.sum - 1| ≤ 1 / 1000000000 :=
  ⟨optimalWeights k d, compute_optimal_weights_ok hk hd, optimalWeights_length k d,
    optimalWeights_sum hk hd, by rw [optimalWeights_sum hk hd]; norm_num⟩

/-- Witness for C1 at `k = 3`, `d = 2`. -/
theorem claim_C1_witness :
    ∃ ws, compute_optimal_weights 3 2 = .ok ws ∧ ws.length = 3 ∧
      ws.sum = 1 ∧ |ws.sum - 1| ≤ 1 / 1000000000 :=
  claim_C1_weights_sum_to_one 3 2 (by norm_num) (by norm_num)

/-- C5: for `(k, d) = (5, 2)` and `(10, 5)` the weight vector returned by
`compute_optimal_weights` is non-increasing in neighbour rank. -/
theorem claim_C5_weights_nonincreasing :
    (∃ ws, compute_optimal_weights 5 2 = .ok ws ∧ ws.Chain' (fun a b => b ≤ a)) ∧
    (∃ ws, compute_optimal_weights 10 5 = .ok ws ∧ ws.Chain' (fun a b => b ≤ a)) :=
  ⟨⟨optimalWeights 5 2, compute_optimal_weights_ok (by norm_num) (by norm_num),
      optimalWeights_antitone (by norm_num) (by norm_num)⟩,
    ⟨optimalWeights 10 5, compute_optimal_weights_ok (by norm_num) (by norm_num),
      optimalWeights_antitone (by norm_num) (by norm_num)⟩⟩

/-- C6: `compute_optimal_weights(0, d)` fails with the `InvalidK` error
(Python's `ZeroDivisionError` at `1.0 / k`, evaluated before any use of
`d`) for every `d`; `compute_optimal_weights(k, 0)` with `k ≥ 1` fails with
the `InvalidDimension` error (`ZeroDivisionError` at `2 / d`); and for all
`k, d ≥ 1` the call succeeds — these are the only error conditions on
non-negative integers. -/
theorem claim_C6_error_conditions :
    (∀ d, compute_optimal_weights 0 d = .error .invalidK) ∧
    (∀ k, 1 ≤ k → compute_optimal_weights k 0 = .error .invalidDimension) ∧
    (∀ k d, 1 ≤ k → 1 ≤ d → compute_optimal_weights k d = .ok (optimalWeights k d)) := by
  refine ⟨fun d => rfl, fun k hk => ?_, fun k d hk hd => compute_optimal_weights_ok hk hd⟩
  have hk' : k ≠ 0 := by omega
  simp [compute_optimal_weights, hk']

/-- Witness for C6 at `(0, 2)`, `(5, 0)` and `(5, 2)`. -/
theorem claim_C6_witness :
    compute_optimal_weights 0 2 = .error .invalidK ∧
    compute_optimal_weights 5 0 = .error .invalidDimension ∧
    compute_optimal_weights 5 2 = .ok (optimalWeights 5 2) :=
  ⟨claim_C6_error_conditions.1 2, claim_C6_error_conditions.2.1 5 (by norm_num),
    claim_C6_error_conditions.2.2 5 2 (by norm_num) (by norm_num)⟩

/-! ## Claims about the classifier state machine -/

/-- C7: `predict` on a classifier on which `fit` has never been called
signals the NotFitted error (Python: `TypeError` from `None - test_point`
on the first loop iteration) for every test input, and the unfitted
classifier holds no training data at all (`X_train = Y_train = None`), so
none is read.  The spec's `FeatureMatrix` data model requires at least one
row, hence the hypothesis `1 ≤ X_test.length`. -/
theorem claim_C7_predict_before_fit (k d : ℕ) (c : WeightedKNNClassifier)
    (hc : WeightedKNNClassifier.init k d = .ok c) (X_test : List (List ℚ))
    (hm : 1 ≤ X_test.length) :
    c.X_train = none ∧ c.Y_train = none ∧ c.predict X_test = .error .notFitted := by
  have hXn : c.X_train = none ∧ c.Y_train = none := by
    unfold WeightedKNNClassifier.init at hc
    cases hw : compute_optimal_weights k d with
    | error e => rw [hw] at hc; cases hc
    | ok w =>
        rw [hw] at hc
        cases hc
        exact ⟨rfl, rfl⟩
  refine ⟨hXn.1, hXn.2, ?_⟩
  unfold WeightedKNNClassifier.predict
  rw [hXn.1, hXn.2]
  simp only []
  rw [if_neg (by omega)]

/-- Witness for C7: a freshly constructed (never fitted) classifier with
`k = 3`, `d = 2` and a one-row test matrix. -/
theorem claim_C7_witness :
    (WeightedKNNClassifier.mk 3 2 (optimalWeights 3 2) none none).X_train = none ∧
    (WeightedKNNClassifier.mk 3 2 (optimalWeights 3 2) none none).Y_train = none ∧
    (WeightedKNNClassifier.mk 3 2 (optimalWeights 3 2) none none).predict [[0]]
      = .error .notFitted :=
  claim_C7_predict_before_fit 3 2 _
    (by simp [WeightedKNNClassifier.init, compute_optimal_weights_ok]) [[0]] (by norm_num)

/-! ## Claims about `select_best_k` on the empty candidate list (C8) -/

/-- C8 counterexample: on the empty candidate list `select_best_k` does
*not* fail — the `for` loop body never runs and the initial pair
`(None, float('inf'))` is returned as the result. -/
theorem claim_C8_counterexample :
    select_best_k [[(0 : ℚ)]] [(1 : ℚ)] [] 1 = .ok (none, ⊤) ∧
    ∀ e : KNNError, select_best_k [[(0 : ℚ)]] [(1 : ℚ)] [] 1 ≠ .error e := by
  refine ⟨rfl, fun e h => ?_⟩
  rw [show select_best_k [[(0 : ℚ)]] [(1 : ℚ)] [] 1 = .ok (none, ⊤) from rfl] at h
  cases h

/-- C8 amended: `select_best_k` on an empty candidate list returns the pair
`(None, float('inf'))` (it signals no error). -/
theorem claim_C8_amended (X : List (List ℚ)) (Y : List ℚ) (d : ℕ) :
    select_best_k X Y [] d = .ok (none, ⊤) :=
  rfl

/-! ## Frame claim (C9) -/

/-- C9: `loocv_error`, `fit` and `predict` borrow the caller's arrays
without mutating them: after each call every row of `X` and entry of `Y`
is as before the call, and `fit` stores references to the very arrays it
was given (preserving row order). -/
theorem claim_C9_no_mutation (X : List (List ℚ)) (Y : List ℚ) (k d : ℕ)
    (c : WeightedKNNClassifier) (X_test : List (List ℚ)) :
    (loocvSession X Y k d).1 = (X, Y) ∧
    (∀ i : ℕ, (loocvSession X Y k d).1.1.getD i [] = X.getD i [] ∧
      (loocvSession X Y k d).1.2.getD i 0 = Y.getD i 0) ∧
    (fitSession c X Y).1 = (X, Y) ∧
    ((fitSession c X Y).2.X_train = some X ∧ (fitSession c X Y).2.Y_train = some Y) ∧
    (predictSession (c.fit X Y) X_test).1 = (some X, some Y, X_test) :=
  ⟨rfl, fun _ => ⟨rfl, rfl⟩, rfl, ⟨rfl, rfl⟩, rfl⟩

/-! ## Invariants of `predict` (C10) -/

/-- Pointwise `getD`-level indicator agreement transfers through `map`. -/
lemma map_getD_indicator_iff (f g : ℕ → ℚ) (hfg : ∀ x, (f x = 1 ↔ g x = 1)) :
    ∀ (idxs : List ℕ) (i : ℕ),
      ((idxs.map f).getD i 0 = 1 ↔ (idxs.map g).getD i 0 = 1) := by
  intro idxs
  induction idxs with
  | nil => intro i; simp
  | cons a t ih =>
      intro i
      cases i with
      | zero => simpa using hfg a
      | succ m => simpa using ih m

/-- The class-1 vote only depends on the labels through the indicator
`label = 1`: labels with any other value contribute `weight · 0`. -/
lemma voteFor1_congr : ∀ (w : List ℝ) (l₁ l₂ : List ℚ),
    (∀ i : ℕ, (l₁.getD i 0 = 1 ↔ l₂.getD i 0 = 1)) → l₁.length = l₂.length →
    voteFor1 w l₁ = voteFor1 w l₂ := by
  intro w
  induction w with
  | nil => intro l₁ l₂ _ _; simp [voteFor1]
  | cons a wt ih =>
      intro l₁ l₂ hiff hlen
      cases l₁ with
      | nil =>
          cases l₂ with
          | nil => rfl
          | cons b t => simp at hlen
      | cons b₁ t₁ =>
          cases l₂ with
          | nil => simp at hlen
          | cons b₂ t₂ =>
              have hhead : (b₁ = 1 ↔ b₂ = 1) := by simpa using hiff 0
              have htail : ∀ i : ℕ, (t₁.getD i 0 = 1 ↔ t₂.getD i 0 = 1) := by
                intro i; simpa using hiff (i + 1)
              have hlen' : t₁.length = t₂.length := by simpa using hlen
              simp only [voteFor1, List.zip_cons_cons, List.map_cons, List.sum_cons]
              rw [show ((List.zip wt t₁).map (fun p => p.1 * (if p.2 = 1 then 1 else 0))).sum
                    = voteFor1 wt t₁ from rfl,
                  show ((List.zip wt t₂).map (fun p => p.1 * (if p.2 = 1 then 1 else 0))).sum
                    = voteFor1 wt t₂ from rfl, ih t₁ t₂ htail hlen']
              congr 1
              by_cases hb : b₁ = 1
              · rw [if_pos hb, if_pos (hhead.mp hb)]
              · rw [if_neg hb, if_neg (fun hb₂ => hb (hhead.mpr hb₂))]

/-- C10: every entry of the array returned by `predict` on a fitted
classifier is exactly 1 or exactly 2, for *arbitrary* (never validated)
training label values; moreover the result depends on the training labels
only through the indicator `label = 1`, i.e. every label different from 1
contributes its weight to the class-2 side of the vote. -/
theorem claim_C10_predictions_binary (c : WeightedKNNClassifier)
    (Xt : List (List ℚ)) (Yt : List ℚ)
    (hX : c.X_train = some Xt) (hY : c.Y_train = some Yt)
    (X_test : List (List ℚ)) :
    ∃ preds : List ℤ, c.predict X_test = .ok preds ∧
      (∀ p ∈ preds, p = 1 ∨ p = 2) ∧
      ∀ Yt' : List ℚ, (∀ i : ℕ, (Yt.getD i 0 = 1 ↔ Yt'.getD i 0 = 1)) →
        WeightedKNNClassifier.predict { c with Y_train := some Yt' } X_test = .ok preds := by
  obtain ⟨k, d, w, cX, cY⟩ := c
  simp only at hX hY
  subst hX hY
  refine ⟨(List.range X_test.length).map (fun j =>
      votePrediction w (rankNeighborLabels Xt Yt (X_test.getD j []) k)), rfl, ?_, ?_⟩
  · intro p hp
    simp only [List.mem_map] at hp
    obtain ⟨j, _, rfl⟩ := hp
    unfold votePrediction
    split
    · exact Or.inl rfl
    · exact Or.inr rfl
  · intro Yt' hiff
    unfold WeightedKNNClassifier.predict
    simp only []
    congr 1
    apply List.map_congr_left
    intro j _
    unfold votePrediction
    have hv : voteFor1 w (rankNeighborLabels Xt Yt' (X_test.getD j []) k)
        = voteFor1 w (rankNeighborLabels Xt Yt (X_test.getD j []) k) := by
      apply voteFor1_congr
      · intro i
        exact (map_getD_indicator_iff _ _ (fun x => (hiff x).symm) _ i)
      · simp [rankNeighborLabels]
    rw [rankNeighborLabels, rankNeighborLabels] at hv ⊢
    rw [hv]

/-- Witness for C10: a fitted classifier whose single training label is the
out-of-domain value 7 and a one-row test matrix. -/
theorem claim_C10_witness :
    ∃ preds : List ℤ,
      (WeightedKNNClassifier.mk 1 1 (optimalWeights 1 1)
          (some [[0]]) (some [(7 : ℚ)])).predict [[0]] = .ok preds ∧
      (∀ p ∈ preds, p = 1 ∨ p = 2) ∧
      ∀ Yt' : List ℚ, (∀ i : ℕ, (([(7 : ℚ)]).getD i 0 = 1 ↔ Yt'.getD i 0 = 1)) →
        WeightedKNNClassifier.predict
          { WeightedKNNClassifier.mk 1 1 (optimalWeights 1 1)
              (some [[0]]) (some [(7 : ℚ)]) with Y_train := some Yt' } [[0]] = .ok preds :=
  claim_C10_predictions_binary _ [[0]] [(7 : ℚ)] rfl rfl [[0]]

/-! ## The voting rule as the spec writes it (C2) -/

/-- The zip-product vote equals the indexed sum over the common length. -/
lemma voteFor1_eq_sum_min : ∀ (w : List ℝ) (labels : List ℚ),
    voteFor1 w labels = ∑ i ∈ Finset.range (min w.length labels.length),
      w.getD i 0 * (if labels.getD i 0 = 1 then 1 else 0) := by
  intro w
  induction w with
  | nil => intro labels; simp [voteFor1]
  | cons a wt ih =>
      intro labels
      cases labels with
      | nil => simp [voteFor1]
      | cons b t =>
          have hmin : min (wt.length + 1) (t.length + 1) = min wt.length t.length + 1 := by
            omega
          simp only [voteFor1, List.zip_cons_cons, List.map_cons, List.sum_cons,
            List.length_cons, hmin, Finset.sum_range_succ']
          rw [show ((List.zip wt t).map (fun p => p.1 * (if p.2 = 1 then 1 else 0))).sum
                = voteFor1 wt t from rfl, ih t]
          simp only [List.getD_cons_succ, List.getD_cons_zero]
          ring

/-- Extending the sum beyond the common length only adds zero terms
(a missing weight contributes `0 · ind`, a missing label reads the default
`0 ≠ 1`).  This matches numpy's shapes whenever both operands have length
`k` and degrades gracefully otherwise. -/
lemma voteFor1_eq_sum_range {w : List ℝ} {labels : List ℚ} {k : ℕ}
    (hk : min w.length labels.length ≤ k) :
    voteFor1 w labels
      = ∑ i ∈ Finset.range k, w.getD i 0 * (if labels.getD i 0 = 1 then 1 else 0) := by
  rw [voteFor1_eq_sum_min]
  apply Finset.sum_subset (Finset.range_subset.mpr hk)
  intro i hi hni
  simp only [Finset.mem_range] at hi hni
  rcases (by omega : w.length ≤ i ∨ labels.length ≤ i) with h | h
  · rw [List.getD_eq_default _ _ h, zero_mul]
  · rw [List.getD_eq_default _ _ h]
    norm_num

/-- The source's voting rule coincides with the spec's formula. -/
lemma votePrediction_eq_spec {w : List ℝ} {labels : List ℚ} {k : ℕ}
    (hk : min w.length labels.length ≤ k) :
    votePrediction w labels = specPrediction w labels k := by
  unfold votePrediction specPrediction
  rw [voteFor1_eq_sum_range hk]

/-- A `foldl` counter over a list is a `countP`. -/
lemma foldl_count_eq_countP {α : Type} (p : α → Prop) [DecidablePred p] :
    ∀ (l : List α) (init : ℕ),
    l.foldl (fun e x => if p x then e + 1 else e) init
      = init + l.countP (fun x => decide (p x)) := by
  intro l
  induction l with
  | nil => intro init; simp
  | cons a t ih =>
      intro init
      simp only [List.foldl_cons, List.countP_cons]
      by_cases h : p a
      · rw [if_pos h, ih]
        simp [h]
        omega
      · rw [if_neg h, ih]
        simp [h]

/-- The LOOCV loop counter, rewritten with the spec's per-row rule. -/
lemma loocvMisses_eq_countP_spec (X : List (List ℚ)) (Y : List ℚ) (k d : ℕ) :
    loocvMisses X Y (optimalWeights k d) k
      = (List.range X.length).countP (fun j =>
          decide ((specPrediction (optimalWeights k d)
              (rankNeighborLabels (npDelete X j) (npDelete Y j) (X.getD j []) k) k : ℚ)
            ≠ Y.getD j 0)) := by
  have hpt : ∀ labels : List ℚ,
      votePrediction (optimalWeights k d) labels
        = specPrediction (optimalWeights k d) labels k := by
    intro labels
    exact votePrediction_eq_spec (by rw [optimalWeights_length]; exact min_le_left _ _)
  unfold loocvMisses
  simp only [hpt]
  have := foldl_count_eq_countP (fun j =>
    ((specPrediction (optimalWeights k d)
        (rankNeighborLabels (npDelete X j) (npDelete Y j) (X.getD j []) k) k : ℚ)
      ≠ Y.getD j 0)) (List.range X.length) 0
  simpa using this

/-- C2: on a dataset with `n ≥ 2` rows and `1 ≤ k ≤ n-1`, `loocv_error`
returns the fraction of held-out rows `j` whose spec-rule prediction
(vote `= Σ_{i<k} weight(i)·1[neighbor_label(i)=1]` over the `k` nearest
remaining rows; label 1 iff vote `≥ 0.5`, the tie at exactly `0.5` going
to label 1) differs from `Y[j]`; and `predict` applies the same rule to
each test row of a fitted classifier. -/
theorem claim_C2_loocv_and_predict_rule (X : List (List ℚ)) (Y : List ℚ) (k d : ℕ)
    (hn : 2 ≤ X.length) (hYX : Y.length = X.length)
    (hk1 : 1 ≤ k) (hk2 : k ≤ X.length - 1) (hd : 1 ≤ d) :
    loocv_error X Y k d = .ok
      (((List.range X.length).countP (fun j =>
          decide ((specPrediction (optimalWeights k d)
              (rankNeighborLabels (npDelete X j) (npDelete Y j) (X.getD j []) k) k : ℚ)
            ≠ Y.getD j 0)) : ℝ) / (X.length : ℝ))
    ∧ ∀ (c : WeightedKNNClassifier) (Xt : List (List ℚ)) (Yt : List ℚ),
        c.X_train = some Xt → c.Y_train = some Yt → c.weights.length = c.k →
        ∀ X_test : List (List ℚ),
          c.predict X_test = .ok ((List.range X_test.length).map (fun j =>
            specPrediction c.weights (rankNeighborLabels Xt Yt (X_test.getD j []) c.k) c.k)) := by
  constructor
  · have hne : X.length ≠ 0 := by omega
    simp only [loocv_error, compute_optimal_weights_ok hk1 hd, hne, if_false,
      loocvMisses_eq_countP_spec]
  · intro c Xt Yt hX hY hw X_test
    obtain ⟨ck, cd, w, cX, cY⟩ := c
    simp only at hX hY hw
    subst hX hY
    unfold WeightedKNNClassifier.predict
    simp only []
    congr 1
    apply List.map_congr_left
    intro j _
    exact votePrediction_eq_spec (by rw [hw]; exact min_le_left _ _)

/-- Witness for C2: the two-point dataset `X = [[0],[1]]`, `Y = [1,2]`
with `k = d = 1`, plus the matching fitted classifier on a one-row test
matrix. -/
theorem claim_C2_witness :
    loocv_error [[(0 : ℚ)], [1]] [(1 : ℚ), 2] 1 1 = .ok
      (((List.range ([[(0 : ℚ)], [1]] : List (List ℚ)).length).countP (fun j =>
          decide ((specPrediction (optimalWeights 1 1)
              (rankNeighborLabels (npDelete [[(0 : ℚ)], [1]] j) (npDelete [(1 : ℚ), 2] j)
                (([[(0 : ℚ)], [1]] : List (List ℚ)).getD j []) 1) 1 : ℚ)
            ≠ ([(1 : ℚ), 2] : List ℚ).getD j 0)) : ℝ)
        / (([[(0 : ℚ)], [1]] : List (List ℚ)).length : ℝ))
    ∧ (WeightedKNNClassifier.mk 1 1 (optimalWeights 1 1)
          (some [[(0 : ℚ)], [1]]) (some [(1 : ℚ), 2])).predict [[(0 : ℚ)]]
        = .ok ((List.range ([[(0 : ℚ)]] : List (List ℚ)).length).map (fun j =>
            specPrediction (optimalWeights 1 1)
              (rankNeighborLabels [[(0 : ℚ)], [1]] [(1 : ℚ), 2]
                (([[(0 : ℚ)]] : List (List ℚ)).getD j []) 1) 1)) := by
  have h := claim_C2_loocv_and_predict_rule [[(0 : ℚ)], [1]] [(1 : ℚ), 2] 1 1
    (by norm_num) (by norm_num) (by norm_num) (by norm_num) (by norm_num)
  exact ⟨h.1, h.2 _ [[(0 : ℚ)], [1]] [(1 : ℚ), 2] rfl rfl
    (by simp [optimalWeights_length]) [[(0 : ℚ)]]⟩

/-! ## `select_best_k` picks the earliest minimiser (C3) -/

/-- On a non-degenerate call, `loocv_error` succeeds with the miss rate. -/
lemma loocv_error_ok {X : List (List ℚ)} {Y : List ℚ} {k d : ℕ}
    (hk : 1 ≤ k) (hd : 1 ≤ d) (hX : 1 ≤ X.length) :
    loocv_error X Y k d = .ok (loocvRate X Y k d) := by
  have hne : X.length ≠ 0 := by omega
  simp only [loocv_error, compute_optimal_weights_ok hk hd, hne, if_false, loocvRate]

/-- One step of the candidate scan, when `loocv_error` succeeds: the
monadic body reduces to the pure strict-improvement update. -/
lemma selectStep_ok {X : List (List ℚ)} {Y : List ℚ} {d a : ℕ}
    (ha : 1 ≤ a) (hd : 1 ≤ d) (hX : 1 ≤ X.length) (init : Option ℕ × WithTop ℝ) :
    ((do
        let error ← loocv_error X Y a d
        if (error : WithTop ℝ) < init.2 then pure (some a, (error : WithTop ℝ))
        else pure init) : Except KNNError (Option ℕ × WithTop ℝ))
      = .ok (if ((loocvRate X Y a d : ℝ) : WithTop ℝ) < init.2
             then (some a, ((loocvRate X Y a d : ℝ) : WithTop ℝ)) else init) := by
  rw [loocv_error_ok ha hd hX]
  show (if ((loocvRate X Y a d : ℝ) : WithTop ℝ) < init.2
        then pure (some a, ((loocvRate X Y a d : ℝ) : WithTop ℝ)) else pure init
        : Except KNNError (Option ℕ × WithTop ℝ)) = _
  by_cases hc : ((loocvRate X Y a d : ℝ) : WithTop ℝ) < init.2
  · rw [if_pos hc, if_pos hc]
    rfl
  · rw [if_neg hc, if_neg hc]
    rfl

/-- When every candidate evaluation succeeds, the monadic candidate scan is
the pure running-minimum fold over the LOOCV rates. -/
lemma select_best_k_eq_foldl {X : List (List ℚ)} {Y : List ℚ} {d : ℕ}
    (hd : 1 ≤ d) (hX : 1 ≤ X.length) :
    ∀ (L : List ℕ), (∀ k ∈ L, 1 ≤ k) → ∀ init : Option ℕ × WithTop ℝ,
    (L.foldlM (fun best k => do
        let error ← loocv_error X Y k d
        if (error : WithTop ℝ) < best.2 then pure (some k, (error : WithTop ℝ))
        else pure best) init : Except KNNError (Option ℕ × WithTop ℝ))
      = .ok (L.foldl (fun best k =>
          if ((loocvRate X Y k d : ℝ) : WithTop ℝ) < best.2
          then (some k, ((loocvRate X Y k d : ℝ) : WithTop ℝ)) else best) init) := by
  intro L
  induction L with
  | nil => intro _ init; rfl
  | cons a t ih =>
      intro hall init
      simp only [List.foldlM_cons, List.foldl_cons]
      rw [selectStep_ok (hall a (by simp)) hd hX init]
      exact ih (fun k hk => hall k (by simp [hk])) _

/-- The running-minimum fold with a strict comparison returns the earliest
index attaining the minimum. -/
lemma foldl_first_argmin (f : ℕ → ℝ) (L : List ℕ) (hL : L ≠ []) :
    ∃ i, i < L.length ∧
      L.foldl (fun best k => if ((f k : ℝ) : WithTop ℝ) < best.2
          then (some k, ((f k : ℝ) : WithTop ℝ)) else best)
          ((none : Option ℕ), (⊤ : WithTop ℝ))
        = (some (L.getD i 0), ((f (L.getD i 0) : ℝ) : WithTop ℝ)) ∧
      (∀ j, j < L.length → f (L.getD i 0) ≤ f (L.getD j 0)) ∧
      (∀ j, j < L.length → j < i → f (L.getD i 0) < f (L.getD j 0)) := by
  induction L using List.reverseRecOn with
  | nil => exact absurd rfl hL
  | append_singleton t a ih =>
      rw [List.foldl_append, List.foldl_cons, List.foldl_nil]
      rcases eq_or_ne t [] with rfl | ht
      · refine ⟨0, by simp, ?_, ?_, ?_⟩
        · simp only [List.foldl_nil]
          rw [if_pos (WithTop.coe_lt_top _)]
          simp
        · intro j hj
          simp only [List.nil_append, List.length_singleton] at hj
          have hj0 : j = 0 := by omega
          subst hj0
          exact le_refl _
        · intro j _ hji
          exact absurd hji (Nat.not_lt_zero j)
      · obtain ⟨i, hi, hfold, hmin, hstrict⟩ := ih ht
        rw [hfold]
        by_cases hlt : ((f a : ℝ) : WithTop ℝ) < ((f (t.getD i 0) : ℝ) : WithTop ℝ)
        · rw [if_pos hlt]
          have hlt' : f a < f (t.getD i 0) := by exact_mod_cast hlt
          refine ⟨t.length, by simp, ?_, ?_, ?_⟩
          · rw [List.getD_append_right t [a] 0 t.length le_rfl]
            simp
          · intro j hj
            rw [List.getD_append_right t [a] 0 t.length le_rfl]
            simp only [Nat.sub_self, List.getD_cons_zero]
            rcases lt_or_ge j t.length with h | h
            · rw [List.getD_append t [a] 0 j h]
              exact le_of_lt (lt_of_lt_of_le hlt' (hmin j h))
            · have : j = t.length := by
                simp only [List.length_append, List.length_singleton] at hj
                omega
              subst this
              rw [List.getD_append_right t [a] 0 t.length le_rfl]
              simp
          · intro j hj hji
            rw [List.getD_append_right t [a] 0 t.length le_rfl]
            simp only [Nat.sub_self, List.getD_cons_zero]
            rw [List.getD_append t [a] 0 j hji]
            exact lt_of_lt_of_le hlt' (hmin j hji)
        · rw [if_neg hlt]
          have hle : f (t.getD i 0) ≤ f a := by
            have := le_of_not_lt hlt
            exact_mod_cast this
          refine ⟨i, by simp only [List.length_append, List.length_singleton]; omega,
            ?_, ?_, ?_⟩
          · rw [List.getD_append t [a] 0 i hi]
          · intro j hj
            rw [List.getD_append t [a] 0 i hi]
            rcases lt_or_ge j t.length with h | h
            · rw [List.getD_append t [a] 0 j h]
              exact hmin j h
            · have : j = t.length := by
                simp only [List.length_append, List.length_singleton] at hj
                omega
              subst this
              rw [List.getD_append_right t [a] 0 t.length le_rfl]
              simpa using hle
          · intro j hj hji
            rw [List.getD_append t [a] 0 i hi, List.getD_append t [a] 0 j (by omega)]
            exact hstrict j (by omega) hji

/-- C3: on a non-empty candidate list (each candidate valid, so that every
`loocv_error` call succeeds), `select_best_k` evaluates the candidates in
the caller-supplied order and returns the earliest candidate attaining the
minimum LOOCV error together with that error: every candidate evaluated
before the winner has a strictly larger error, and no candidate anywhere
has a smaller one (ties are kept by the strict `<` update). -/
theorem claim_C3_select_first_minimum (X : List (List ℚ)) (Y : List ℚ)
    (candidates : List ℕ) (d : ℕ)
    (hne : candidates ≠ []) (hcand : ∀ k ∈ candidates, 1 ≤ k)
    (hd : 1 ≤ d) (hX : 1 ≤ X.length) :
    ∃ i, i < candidates.length ∧
      select_best_k X Y candidates d
        = .ok (some (candidates.getD i 0),
            ((loocvRate X Y (candidates.getD i 0) d : ℝ) : WithTop ℝ)) ∧
      (∀ j, j < candidates.length →
        loocvRate X Y (candidates.getD i 0) d ≤ loocvRate X Y (candidates.getD j 0) d) ∧
      (∀ j, j < candidates.length → j < i →
        loocvRate X Y (candidates.getD i 0) d < loocvRate X Y (candidates.getD j 0) d) := by
  obtain ⟨i, hi, hfold, hmin, hstrict⟩ :=
    foldl_first_argmin (fun k => loocvRate X Y k d) candidates hne
  refine ⟨i, hi, ?_, hmin, hstrict⟩
  unfold select_best_k
  rw [select_best_k_eq_foldl hd hX candidates hcand ((none : Option ℕ), (⊤ : WithTop ℝ))]
  rw [hfold]

/-- Witness for C3: the two-point dataset with the single candidate `k = 1`
and `d = 1`. -/
theorem claim_C3_witness :
    ∃ i, i < ([1] : List ℕ).length ∧
      select_best_k [[(0 : ℚ)], [1]] [(1 : ℚ), 2] [1] 1
        = .ok (some (([1] : List ℕ).getD i 0),
            ((loocvRate [[(0 : ℚ)], [1]] [(1 : ℚ), 2] (([1] : List ℕ).getD i 0) 1 : ℝ)
              : WithTop ℝ)) ∧
      (∀ j, j < ([1] : List ℕ).length →
        loocvRate [[(0 : ℚ)], [1]] [(1 : ℚ), 2] (([1] : List ℕ).getD i 0) 1
          ≤ loocvRate [[(0 : ℚ)], [1]] [(1 : ℚ), 2] (([1] : List ℕ).getD j 0) 1) ∧
      (∀ j, j < ([1] : List ℕ).length → j < i →
        loocvRate [[(0 : ℚ)], [1]] [(1 : ℚ), 2] (([1] : List ℕ).getD i 0) 1
          < loocvRate [[(0 : ℚ)], [1]] [(1 : ℚ), 2] (([1] : List ℕ).getD j 0) 1) :=
  claim_C3_select_first_minimum [[(0 : ℚ)], [1]] [(1 : ℚ), 2] [1] 1
    (by simp) (by simp) (by norm_num) (by norm_num)
